import Mathlib

/-!
Shallow embedding of `meshtastic/powermon/ppk2.py` (class `PPK2PowerSupply`).

Python floats are modelled as rationals (`ℚ`): every number the module
manipulates (current samples in microamperes, the configured voltage, the
statistics) is exact decimal data, and no claim checked here is about binary
floating-point rounding.  Device commands sent to the `ppk2_api` driver are
modelled as an explicit trace of `Cmd` values, in the order the code issues
them.  Fallible Python operations (raising `PowerError`, `min`/`max` on an
empty list, indexing `[-1]` on an empty list, division by a zero length)
are modelled with `Except` / `Option`.
-/

namespace PPK2

/-- A decoded current sample, in microamperes (a Python float, modelled as ℚ). -/
abbrev Sample := ℚ

/-- Raw bytes returned by `self.r.get_data()`, modelled as a list of byte values. -/
abbrev RawData := List Nat

/-- The two `PowerError` raise sites in `PPK2PowerSupply.__init__`. -/
inductive PowerError where
  | noPPK2DevicesFound
  | multiplePPK2DevicesFound
  deriving DecidableEq

/-- Commands/effects the code issues to the ppk2 driver, the thread machinery
and the base class, in source order.  `openDevice` is `ppk2_api.PPK2_MP(portName)`,
`startMeasurementThread` is `self.measurement_thread.start()`, `superClose` is
`super().close()`. -/
inductive Cmd where
  | openDevice : String → Cmd
  | get_modifiers : Cmd
  | start_measuring : Cmd
  | startMeasurementThread : Cmd
  | stop_measuring : Cmd
  | joinMeasurementThread : Cmd
  | superClose : Cmd
  | set_source_voltage : ℤ → Cmd
  | use_ampere_meter : Cmd
  | use_source_meter : Cmd
  | toggle_DUT_power : String → Cmd
  deriving DecidableEq

/-- Whether a command switches the device's operating mode
(`use_ampere_meter` or `use_source_meter`). -/
def isModeCmd : Cmd → Bool
  | Cmd.use_ampere_meter => true
  | Cmd.use_source_meter => true
  | _ => false

/-- Python's `if not portName:` — both `None` and the empty string are falsy. -/
def portNameFalsy : Option String → Bool
  | none => true
  | some p => p == ""

/-- The device-selection logic at the top of `PPK2PowerSupply.__init__`:
with a falsy `portName` it consults discovery (`devs`); zero candidates raise
`PowerError("No PPK2 devices found")`, two or more raise
`PowerError("Multiple PPK2 devices found, ...")`, exactly one is used. -/
def resolvePort (portName : Option String) (devs : List String) :
    Except PowerError String :=
  if portNameFalsy portName then
    match devs with
    | [] => Except.error PowerError.noPPK2DevicesFound
    | [d] => Except.ok d
    | _ :: _ :: _ => Except.error PowerError.multiplePPK2DevicesFound
  else Except.ok (portName.getD "")

/-- The mutable state of a `PPK2PowerSupply` object that the claims are about:
the stop flag `self.measuring` and the sample buffer `self.current_measurements`. -/
structure SessionState where
  measuring : Bool
  current_measurements : List Sample
  deriving DecidableEq

/-- `PPK2PowerSupply.__init__`, with the result of `ppk2_api.PPK2_API.list_devices()`
passed in as `devs`: on a resolution error nothing is allocated (the command
trace is empty: no device handle is opened and no thread is started); on
success the device is opened, `get_modifiers` and `start_measuring` are issued,
the buffer is initialized to the single sample `0.0`, `measuring` is set, and
the measurement thread is started. -/
def PPK2PowerSupply_init (portName : Option String) (devs : List String) :
    List Cmd × Except PowerError SessionState :=
  match resolvePort portName devs with
  | Except.error e => ([], Except.error e)
  | Except.ok p =>
      ([Cmd.openDevice p, Cmd.get_modifiers, Cmd.start_measuring,
        Cmd.startMeasurementThread],
       Except.ok { measuring := true, current_measurements := [0] })

/-- Python's built-in `min` on a list: a left fold of binary `min` over the
elements; raises (`none`) on the empty list. -/
def pyListMin : List ℚ → Option ℚ
  | [] => none
  | x :: xs => some (xs.foldl min x)

/-- Python's built-in `max` on a list, dually. -/
def pyListMax : List ℚ → Option ℚ
  | [] => none
  | x :: xs => some (xs.foldl max x)

/-- `get_min_current_mA`: `min(self.current_measurements) / 1000`. -/
def get_min_current_mA (current_measurements : List Sample) : Option ℚ :=
  (pyListMin current_measurements).map fun m => m / 1000

/-- `get_max_current_mA`: `max(self.current_measurements) / 1000`. -/
def get_max_current_mA (current_measurements : List Sample) : Option ℚ :=
  (pyListMax current_measurements).map fun m => m / 1000

/-- `get_average_current_mA`:
`(sum(self.current_measurements) / len(self.current_measurements)) / 1000`;
on an empty buffer Python would divide by zero (`none`). -/
def get_average_current_mA (current_measurements : List Sample) : Option ℚ :=
  if current_measurements.isEmpty then none
  else some (current_measurements.sum / (current_measurements.length : ℚ) / 1000)

/-- `reset_measurements`:
`self.current_measurements = [ self.current_measurements[-1] ]`;
`[-1]` on an empty list raises (`none`). -/
def reset_measurements (current_measurements : List Sample) :
    Option (List Sample) :=
  current_measurements.getLast?.map fun x => [x]

/-- One iteration of the body of `measurement_loop`, with the poll result
`read_data` and the driver decode `get_samples` passed in as oracles.  The
source has no `try`/`except` around `self.r.get_samples(read_data)`, so a
raising decode propagates out of the loop (the `Except.error` case); a
successful decode discards the leftover bytes and appends the samples. -/
def measurement_loop_iter
    (get_samples : RawData → Except String (List Sample × RawData))
    (read_data : RawData) (current_measurements : List Sample) :
    Except String (List Sample) :=
  if read_data ≠ [] then
    match get_samples read_data with
    | Except.ok (samples, _) => Except.ok (current_measurements ++ samples)
    | Except.error e => Except.error e
  else Except.ok current_measurements

/-- The operations that touch `self.current_measurements` after `__init__`:
a successful loop iteration appending decoded samples, `reset_measurements`,
and the three statistics reads. -/
inductive BufOp where
  | loopAppend : List Sample → BufOp
  | resetMeasurements : BufOp
  | readMin : BufOp
  | readMax : BufOp
  | readAverage : BufOp

/-- Effect of one buffer operation on the buffer; the reads leave the buffer
unchanged but fail (as the Python would raise) on an empty buffer. -/
def applyBufOp (buf : List Sample) : BufOp → Option (List Sample)
  | BufOp.loopAppend samples => some (buf ++ samples)
  | BufOp.resetMeasurements => reset_measurements buf
  | BufOp.readMin => (get_min_current_mA buf).map fun _ => buf
  | BufOp.readMax => (get_max_current_mA buf).map fun _ => buf
  | BufOp.readAverage => (get_average_current_mA buf).map fun _ => buf

/-- Running a sequence of buffer operations from the buffer as `__init__`
leaves it: the single zero sample `[0.0]`. -/
def runBufOps (ops : List BufOp) : Option (List Sample) :=
  List.foldlM applyBufOp [0] ops

/-- `close`: unconditionally sets `self.measuring = False`, sends
`stop_measuring`, joins the measurement thread and calls `super().close()`.
The source performs no session-state check whatsoever, so this never fails.
The base class `PowerSupply.close` is not under `src/`; per the spec (§4.1)
it only releases resources, modelled here as the opaque `Cmd.superClose`. -/
def close (st : SessionState) : Except PowerError (SessionState × List Cmd) :=
  Except.ok ({ st with measuring := false },
    [Cmd.stop_measuring, Cmd.joinMeasurementThread, Cmd.superClose])

/-- Python's `int(...)` applied to an exact rational: truncation toward zero,
i.e. `Int.tdiv` of the numerator by the denominator. -/
def pyInt (q : ℚ) : ℤ := q.num.tdiv q.den

/-- `setIsSupply(s)`: first `set_source_voltage(int(self.v * 1000))`, then the
mode command — `use_ampere_meter` when `not s`, else `use_source_meter`.
`v` is the configured target voltage in volts (`self.v` from the base class). -/
def setIsSupply (v : ℚ) (s : Bool) : List Cmd :=
  Cmd.set_source_voltage (pyInt (v * 1000)) ::
    (if !s then [Cmd.use_ampere_meter] else [Cmd.use_source_meter])

/-- `powerOn`: `toggle_DUT_power("ON")`. -/
def powerOn : List Cmd := [Cmd.toggle_DUT_power "ON"]

/-- `powerOff`: `toggle_DUT_power("OFF")`. -/
def powerOff : List Cmd := [Cmd.toggle_DUT_power "OFF"]

/-! ### Helper lemmas about Python's fold-based `min`/`max` and list sums -/

lemma foldl_min_le_init (xs : List ℚ) (a : ℚ) : xs.foldl min a ≤ a := by
  induction xs generalizing a with
  | nil => exact le_refl a
  | cons x xs ih =>
      rw [List.foldl_cons]
      exact le_trans (ih (min a x)) (min_le_left a x)

lemma foldl_min_le_mem (xs : List ℚ) (a y : ℚ) : y ∈ xs → xs.foldl min a ≤ y := by
  induction xs generalizing a with
  | nil => intro hy; exact absurd hy (List.not_mem_nil y)
  | cons x xs ih =>
      intro hy
      rw [List.foldl_cons]
      rcases List.mem_cons.mp hy with rfl | hy'
      · exact le_trans (foldl_min_le_init xs (min a y)) (min_le_right a y)
      · exact ih (min a x) hy'

lemma foldl_min_mem (xs : List ℚ) (a : ℚ) :
    xs.foldl min a = a ∨ xs.foldl min a ∈ xs := by
  induction xs generalizing a with
  | nil => exact Or.inl rfl
  | cons x xs ih =>
      rw [List.foldl_cons]
      rcases ih (min a x) with h | h
      · rcases min_choice a x with hax | hax
        · exact Or.inl (h.trans hax)
        · refine Or.inr ?_
          rw [h, hax]
          exact List.mem_cons_self x xs
      · exact Or.inr (List.mem_cons_of_mem x h)

lemma init_le_foldl_max (xs : List ℚ) (a : ℚ) : a ≤ xs.foldl max a := by
  induction xs generalizing a with
  | nil => exact le_refl a
  | cons x xs ih =>
      rw [List.foldl_cons]
      exact le_trans (le_max_left a x) (ih (max a x))

lemma mem_le_foldl_max (xs : List ℚ) (a y : ℚ) : y ∈ xs → y ≤ xs.foldl max a := by
  induction xs generalizing a with
  | nil => intro hy; exact absurd hy (List.not_mem_nil y)
  | cons x xs ih =>
      intro hy
      rw [List.foldl_cons]
      rcases List.mem_cons.mp hy with rfl | hy'
      · exact le_trans (le_max_right a y) (init_le_foldl_max xs (max a y))
      · exact ih (max a x) hy'

lemma foldl_max_mem (xs : List ℚ) (a : ℚ) :
    xs.foldl max a = a ∨ xs.foldl max a ∈ xs := by
  induction xs generalizing a with
  | nil => exact Or.inl rfl
  | cons x xs ih =>
      rw [List.foldl_cons]
      rcases ih (max a x) with h | h
      · rcases max_choice a x with hax | hax
        · exact Or.inl (h.trans hax)
        · refine Or.inr ?_
          rw [h, hax]
          exact List.mem_cons_self x xs
      · exact Or.inr (List.mem_cons_of_mem x h)

lemma mul_length_le_sum (l : List ℚ) (m : ℚ) (h : ∀ y ∈ l, m ≤ y) :
    m * (l.length : ℚ) ≤ l.sum := by
  induction l with
  | nil => simp
  | cons x xs ih =>
      have hx : m ≤ x := h x (List.mem_cons_self x xs)
      have hxs : m * (xs.length : ℚ) ≤ xs.sum :=
        ih fun y hy => h y (List.mem_cons_of_mem x hy)
      have hring : m * (((x :: xs).length : ℚ)) = m * (xs.length : ℚ) + m := by
        push_cast [List.length_cons]
        ring
      rw [hring, List.sum_cons]
      linarith

lemma sum_le_mul_length (l : List ℚ) (M : ℚ) (h : ∀ y ∈ l, y ≤ M) :
    l.sum ≤ M * (l.length : ℚ) := by
  induction l with
  | nil => simp
  | cons x xs ih =>
      have hx : x ≤ M := h x (List.mem_cons_self x xs)
      have hxs : xs.sum ≤ M * (xs.length : ℚ) :=
        ih fun y hy => h y (List.mem_cons_of_mem x hy)
      have hring : M * (((x :: xs).length : ℚ)) = M * (xs.length : ℚ) + M := by
        push_cast [List.length_cons]
        ring
      rw [hring, List.sum_cons]
      linarith

/-! ### Claim theorems -/

/-- C4: calling `__init__` with no port name while discovery returns zero
candidates fails with the "No PPK2 devices found" error, and the command trace
is empty — no device handle is opened and no measurement thread is started.
Both `None` and the empty string count as "no device selector". -/
theorem open_no_devices_fails :
    PPK2PowerSupply_init none [] =
      ([], Except.error PowerError.noPPK2DevicesFound) ∧
    PPK2PowerSupply_init (some "") [] =
      ([], Except.error PowerError.noPPK2DevicesFound) := by
  exact ⟨rfl, rfl⟩

/-- C5: calling `__init__` with no port name while discovery returns two or
more candidates fails with the "Multiple PPK2 devices found" error rather than
picking one, and the command trace is empty. -/
theorem open_multiple_devices_fails (d1 d2 : String) (rest : List String) :
    PPK2PowerSupply_init none (d1 :: d2 :: rest) =
      ([], Except.error PowerError.multiplePPK2DevicesFound) := by
  rfl

/-- C1: on every non-empty buffer, `get_min_current_mA` returns the minimum of
the buffered microampere values divided by 1000, `get_max_current_mA` the
maximum divided by 1000, and `get_average_current_mA` the arithmetic mean
(sum over length) divided by 1000. -/
theorem stats_return_min_max_mean (buf : List Sample) (hne : buf ≠ []) :
    (∃ m, m ∈ buf ∧ (∀ y ∈ buf, m ≤ y) ∧
      get_min_current_mA buf = some (m / 1000)) ∧
    (∃ M, M ∈ buf ∧ (∀ y ∈ buf, y ≤ M) ∧
      get_max_current_mA buf = some (M / 1000)) ∧
    get_average_current_mA buf = some (buf.sum / (buf.length : ℚ) / 1000) := by
  obtain ⟨x, xs, rfl⟩ : ∃ x xs, buf = x :: xs := by
    cases buf with
    | nil => exact absurd rfl hne
    | cons x xs => exact ⟨x, xs, rfl⟩
  refine ⟨⟨xs.foldl min x, ?_, ?_, rfl⟩, ⟨xs.foldl max x, ?_, ?_, rfl⟩, ?_⟩
  · rcases foldl_min_mem xs x with h | h
    · rw [h]; exact List.mem_cons_self x xs
    · exact List.mem_cons_of_mem x h
  · intro y hy
    rcases List.mem_cons.mp hy with rfl | hy'
    · exact foldl_min_le_init xs y
    · exact foldl_min_le_mem xs x y hy'
  · rcases foldl_max_mem xs x with h | h
    · rw [h]; exact List.mem_cons_self x xs
    · exact List.mem_cons_of_mem x h
  · intro y hy
    rcases List.mem_cons.mp hy with rfl | hy'
    · exact init_le_foldl_max xs y
    · exact mem_le_foldl_max xs x y hy'
  · simp [get_average_current_mA]

/-- C1 witness: the spec's concrete scenario — buffer [1000, 2000, 3000] µA
yields min = 1 mA, max = 3 mA, average = 2 mA; the last conjunct instantiates
the universal theorem at that buffer. -/
theorem stats_return_min_max_mean_witness :
    get_min_current_mA [1000, 2000, 3000] = some 1 ∧
    get_max_current_mA [1000, 2000, 3000] = some 3 ∧
    get_average_current_mA [1000, 2000, 3000] = some 2 ∧
    (∃ m, m ∈ ([1000, 2000, 3000] : List Sample) ∧
      (∀ y ∈ ([1000, 2000, 3000] : List Sample), m ≤ y) ∧
      get_min_current_mA [1000, 2000, 3000] = some (m / 1000)) :=
  ⟨by norm_num [get_min_current_mA, pyListMin, List.foldl_cons, List.foldl_nil, min_def],
    by norm_num [get_max_current_mA, pyListMax, List.foldl_cons, List.foldl_nil, max_def],
    by norm_num [get_average_current_mA],
    (stats_return_min_max_mean [1000, 2000, 3000] (by simp)).1⟩

/-- C2: on every non-empty buffer, the value returned by `get_min_current_mA`
is at most the value returned by `get_average_current_mA`, which is at most
the value returned by `get_max_current_mA`. -/
theorem min_le_average_le_max (buf : List Sample) (hne : buf ≠ []) (a b c : ℚ)
    (ha : get_min_current_mA buf = some a)
    (hb : get_average_current_mA buf = some b)
    (hc : get_max_current_mA buf = some c) :
    a ≤ b ∧ b ≤ c := by
  obtain ⟨x, xs, rfl⟩ : ∃ x xs, buf = x :: xs := by
    cases buf with
    | nil => exact absurd rfl hne
    | cons x xs => exact ⟨x, xs, rfl⟩
  simp only [get_min_current_mA, get_max_current_mA, get_average_current_mA,
    pyListMin, pyListMax, List.isEmpty_cons, Bool.false_eq_true, if_false,
    Option.map_some', Option.some.injEq] at ha hb hc
  subst ha hb hc
  have hmin_le : ∀ y ∈ x :: xs, xs.foldl min x ≤ y := by
    intro y hy
    rcases List.mem_cons.mp hy with rfl | hy'
    · exact foldl_min_le_init xs y
    · exact foldl_min_le_mem xs x y hy'
  have hle_max : ∀ y ∈ x :: xs, y ≤ xs.foldl max x := by
    intro y hy
    rcases List.mem_cons.mp hy with rfl | hy'
    · exact init_le_foldl_max xs y
    · exact mem_le_foldl_max xs x y hy'
  have hlen : (0 : ℚ) < ((x :: xs).length : ℚ) := by
    rw [List.length_cons]
    push_cast
    positivity
  have h1 : xs.foldl min x ≤ (x :: xs).sum / ((x :: xs).length : ℚ) :=
    (le_div_iff₀ hlen).mpr (mul_length_le_sum (x :: xs) _ hmin_le)
  have h2 : (x :: xs).sum / ((x :: xs).length : ℚ) ≤ xs.foldl max x :=
    (div_le_iff₀ hlen).mpr (sum_le_mul_length (x :: xs) _ hle_max)
  have h1000 : (0 : ℚ) < 1000 := by norm_num
  exact ⟨(div_le_div_iff_of_pos_right h1000).mpr h1,
    (div_le_div_iff_of_pos_right h1000).mpr h2⟩

/-- C2 witness: on the buffer [1000, 2000, 3000], min = 1 ≤ average = 2 ≤
max = 3; the ordering conjunct comes from applying the universal theorem. -/
theorem min_le_average_le_max_witness :
    get_min_current_mA [1000, 2000, 3000] = some 1 ∧
    get_average_current_mA [1000, 2000, 3000] = some 2 ∧
    get_max_current_mA [1000, 2000, 3000] = some 3 ∧
    ((1 : ℚ) ≤ 2 ∧ (2 : ℚ) ≤ 3) := by
  have hmin : get_min_current_mA [1000, 2000, 3000] = some 1 := by
    norm_num [get_min_current_mA, pyListMin, List.foldl_cons, List.foldl_nil, min_def]
  have havg : get_average_current_mA [1000, 2000, 3000] = some 2 := by
    norm_num [get_average_current_mA]
  have hmax : get_max_current_mA [1000, 2000, 3000] = some 3 := by
    norm_num [get_max_current_mA, pyListMax, List.foldl_cons, List.foldl_nil, max_def]
  exact ⟨hmin, havg, hmax,
    min_le_average_le_max [1000, 2000, 3000] (by simp) 1 2 3 hmin havg hmax⟩

/-- C3: on every non-empty buffer, `reset_measurements` replaces the buffer
with the single-element list holding exactly its last element. -/
theorem reset_measurements_keeps_last (buf : List Sample) (hne : buf ≠ []) :
    reset_measurements buf = some [buf.getLast hne] := by
  rw [reset_measurements, List.getLast?_eq_getLast buf hne]
  rfl

/-- C3 witness: the spec's concrete scenario — resetting the buffer [1, 2, 3]
yields the buffer [3]. -/
theorem reset_measurements_keeps_last_witness :
    reset_measurements ([1, 2, 3] : List Sample) = some [3] := by
  have h := reset_measurements_keeps_last [1, 2, 3] (by decide)
  rw [h]
  decide

/-- Helper for C7: from any non-empty buffer, every sequence of buffer
operations succeeds and ends in a non-empty buffer. -/
lemma foldlM_applyBufOp_ne_nil (ops : List BufOp) :
    ∀ buf : List Sample, buf ≠ [] →
      ∃ out, List.foldlM applyBufOp buf ops = some out ∧ out ≠ [] := by
  induction ops with
  | nil => intro buf h; exact ⟨buf, rfl, h⟩
  | cons op ops ih =>
      intro buf h
      obtain ⟨x, xs, rfl⟩ : ∃ x xs, buf = x :: xs := by
        cases buf with
        | nil => exact absurd rfl h
        | cons x xs => exact ⟨x, xs, rfl⟩
      obtain ⟨buf1, h1, hne1⟩ :
          ∃ buf1, applyBufOp (x :: xs) op = some buf1 ∧ buf1 ≠ [] := by
        cases op with
        | loopAppend samples => exact ⟨x :: xs ++ samples, rfl, by simp⟩
        | resetMeasurements =>
            refine ⟨[(x :: xs).getLast (by simp)], ?_, by simp⟩
            simp [applyBufOp, reset_measurements,
              List.getLast?_eq_getLast (x :: xs) (by simp)]
        | readMin => exact ⟨x :: xs, rfl, by simp⟩
        | readMax => exact ⟨x :: xs, rfl, by simp⟩
        | readAverage =>
            refine ⟨x :: xs, ?_, by simp⟩
            simp [applyBufOp, get_average_current_mA]
      rw [List.foldlM_cons, h1]
      exact ih buf1 hne1

/-- C7: after `__init__` the sample buffer is exactly the single zero sample,
and every sequence of subsequent buffer operations (loop appends, resets,
statistics reads) succeeds and preserves the invariant that the buffer length
is at least 1. -/
theorem buffer_length_invariant :
    runBufOps [] = some [0] ∧
    ∀ ops : List BufOp, ∃ buf, runBufOps ops = some buf ∧ 1 ≤ buf.length := by
  refine ⟨rfl, fun ops => ?_⟩
  obtain ⟨buf, hbuf, hne⟩ := foldlM_applyBufOp_ne_nil ops [0] (by simp)
  exact ⟨buf, hbuf, List.length_pos.mpr hne⟩

/-- C8 counterexample: in the source, `measurement_loop` wraps no handler
around `self.r.get_samples(read_data)`; with a decode oracle that fails on the
chunk `[1]`, the iteration propagates the failure instead of leaving the
buffer `[0]` unchanged and continuing, so a decode failure is fatal to the
loop, contrary to the claim. -/
theorem loop_decode_failure_is_fatal :
    measurement_loop_iter (fun _ => Except.error "malformed") [1] [0] =
      Except.error "malformed" ∧
    measurement_loop_iter (fun _ => Except.error "malformed") [1] [0] ≠
      Except.ok [0] :=
  ⟨rfl, fun h => Except.noConfusion h⟩

/-- C8 amended: the loop treats an empty poll result as "no data" and
continues; a chunk the driver decodes successfully contributes its samples
(a partial frame decoded to zero samples plus leftover bytes leaves the buffer
unchanged, the leftover being discarded); but a decode that raises is not
caught or logged by the loop — the error propagates and terminates the loop. -/
theorem loop_iter_behavior
    (get_samples : RawData → Except String (List Sample × RawData))
    (read_data : RawData) (buf : List Sample) :
    (read_data = [] →
      measurement_loop_iter get_samples read_data buf = Except.ok buf) ∧
    (∀ samples leftover, read_data ≠ [] →
      get_samples read_data = Except.ok (samples, leftover) →
      measurement_loop_iter get_samples read_data buf =
        Except.ok (buf ++ samples)) ∧
    (∀ e, read_data ≠ [] → get_samples read_data = Except.error e →
      measurement_loop_iter get_samples read_data buf = Except.error e) := by
  refine ⟨?_, ?_, ?_⟩
  · intro h
    simp [measurement_loop_iter, h]
  · intro samples leftover hne hdec
    simp [measurement_loop_iter, hne, hdec]
  · intro e hne hdec
    simp [measurement_loop_iter, hne, hdec]

/-- C8 amended witness: a non-empty chunk decoded to one sample `5` with
leftover `[7]` appends the sample and discards the leftover; a chunk decoded
to zero samples leaves the buffer unchanged. -/
theorem loop_iter_behavior_witness :
    measurement_loop_iter (fun _ => Except.ok ([5], [7])) [9] [0] =
      Except.ok [0, 5] ∧
    measurement_loop_iter (fun _ => Except.ok ([], [7])) [9] [0] =
      Except.ok [0] :=
  ⟨(loop_iter_behavior (fun _ => Except.ok ([5], [7])) [9] [0]).2.1 [5] [7]
      (by simp) rfl,
    (loop_iter_behavior (fun _ => Except.ok ([], [7])) [9] [0]).2.1 [] [7]
      (by simp) rfl⟩

/-- C9 counterexample: `close` performs no lifecycle check.  Closing from the
running state succeeds, closing again from the resulting already-closed state
succeeds as well (instead of failing with an `InvalidLifecycleTransition`-style
error), and a statistics query on the buffer retained after close still
succeeds. -/
theorem close_has_no_lifecycle_check :
    close { measuring := true, current_measurements := [0] } =
      Except.ok ({ measuring := false, current_measurements := [0] },
        [Cmd.stop_measuring, Cmd.joinMeasurementThread, Cmd.superClose]) ∧
    close { measuring := false, current_measurements := [0] } =
      Except.ok ({ measuring := false, current_measurements := [0] },
        [Cmd.stop_measuring, Cmd.joinMeasurementThread, Cmd.superClose]) ∧
    get_min_current_mA [0] = some 0 :=
  ⟨rfl, rfl, by norm_num [get_min_current_mA, pyListMin]⟩

/-- C9 amended: no operation checks the session state.  `close` succeeds from
every state — it unconditionally clears the `measuring` flag, issues
`stop_measuring`, joins the thread and calls the base-class close — and the
buffer survives, so a second `close` and post-close statistics queries (on the
never-empty buffer) also succeed rather than failing fast. -/
theorem close_succeeds_from_any_state (st : SessionState) :
    (close st = Except.ok ({ st with measuring := false },
      [Cmd.stop_measuring, Cmd.joinMeasurementThread, Cmd.superClose])) ∧
    (∀ st' cmds, close st = Except.ok (st', cmds) →
      st'.current_measurements = st.current_measurements ∧
      ∃ st2 cmds2, close st' = Except.ok (st2, cmds2)) ∧
    (st.current_measurements ≠ [] →
      ∃ q, get_min_current_mA st.current_measurements = some q) := by
  refine ⟨rfl, ?_, ?_⟩
  · intro st' cmds h
    refine ⟨?_, ⟨{ st' with measuring := false }, _, rfl⟩⟩
    cases h
    rfl
  · intro hne
    obtain ⟨x, xs, hx⟩ : ∃ x xs, st.current_measurements = x :: xs := by
      cases hcm : st.current_measurements with
      | nil => exact absurd hcm hne
      | cons x xs => exact ⟨x, xs, rfl⟩
    exact ⟨(xs.foldl min x) / 1000, by rw [hx]; rfl⟩

/-- Helper for C10: on a nonnegative rational, Python's `int` truncation
agrees with the floor. -/
lemma pyInt_eq_floor (q : ℚ) (h : 0 ≤ q) : pyInt q = ⌊q⌋ := by
  rw [Rat.floor_def, pyInt]
  exact Int.tdiv_eq_ediv (Rat.num_nonneg.mpr h) (Int.natCast_nonneg q.den)

/-- Helper for C10: Python's `int` truncation is odd. -/
lemma pyInt_neg (q : ℚ) : pyInt (-q) = -pyInt q := by
  simp [pyInt, Rat.neg_num, Rat.neg_den, Int.neg_tdiv]

/-- Helper for C10: on a negative rational, Python's `int` truncation agrees
with the ceiling. -/
lemma pyInt_eq_ceil (q : ℚ) (h : q < 0) : pyInt q = ⌈q⌉ := by
  have h0 : (0 : ℚ) ≤ -q := by linarith
  have hf : pyInt (-q) = ⌊-q⌋ := pyInt_eq_floor (-q) h0
  rw [pyInt_neg, Int.floor_neg] at hf
  omega

/-- C6: `setIsSupply` issues the set-source-voltage command (with the
configured voltage converted to millivolts) strictly before the mode command
— `use_source_meter` when supply mode is requested, `use_ampere_meter`
otherwise — and no mode command is issued at or before the voltage command's
position. -/
theorem setIsSupply_voltage_before_mode (v : ℚ) (s : Bool) :
    ∃ i j : ℕ, i < j ∧
      (setIsSupply v s)[i]? =
        some (Cmd.set_source_voltage (pyInt (v * 1000))) ∧
      (setIsSupply v s)[j]? =
        some (if s then Cmd.use_source_meter else Cmd.use_ampere_meter) ∧
      ∀ k : ℕ, ∀ c, (setIsSupply v s)[k]? = some c → isModeCmd c = true →
        i < k := by
  refine ⟨0, 1, Nat.zero_lt_one, by simp [setIsSupply], ?_, ?_⟩
  · cases s <;> simp [setIsSupply]
  · intro k c hk hc
    cases k with
    | zero =>
        have hcv : Cmd.set_source_voltage (pyInt (v * 1000)) = c := by
          simpa [setIsSupply] using hk
        rw [← hcv] at hc
        simp [isModeCmd] at hc
    | succ k => exact Nat.succ_pos k

/-- C6 witness: the ordering instantiated at the concrete voltage 3 V with
supply mode requested. -/
theorem setIsSupply_voltage_before_mode_witness :
    ∃ i j : ℕ, i < j ∧
      (setIsSupply 3 true)[i]? =
        some (Cmd.set_source_voltage (pyInt (3 * 1000))) ∧
      (setIsSupply 3 true)[j]? =
        some (if true then Cmd.use_source_meter else Cmd.use_ampere_meter) ∧
      ∀ k : ℕ, ∀ c, (setIsSupply 3 true)[k]? = some c → isModeCmd c = true →
        i < k :=
  setIsSupply_voltage_before_mode 3 true

/-- C10: the millivolt argument of the set-source-voltage command issued by
`setIsSupply` is `int(v * 1000)`, i.e. `v * 1000` truncated toward zero — it
equals the floor of `v * 1000` when that product is nonnegative and its
ceiling when it is negative. -/
theorem setIsSupply_sends_truncated_millivolts (v : ℚ) (s : Bool) :
    (setIsSupply v s)[0]? =
      some (Cmd.set_source_voltage (pyInt (v * 1000))) ∧
    (0 ≤ v * 1000 → pyInt (v * 1000) = ⌊v * 1000⌋) ∧
    (v * 1000 < 0 → pyInt (v * 1000) = ⌈v * 1000⌉) :=
  ⟨by simp [setIsSupply], fun h => pyInt_eq_floor _ h, fun h => pyInt_eq_ceil _ h⟩

/-- C10 witness: a configured voltage of 3.0007 V gives the non-integral
product 3000.7 mV, which is sent truncated to 3000 mV — not rounded to
3001 mV. -/
theorem setIsSupply_sends_truncated_millivolts_witness :
    (setIsSupply (30007 / 10000) true)[0]? =
      some (Cmd.set_source_voltage (pyInt ((30007 / 10000 : ℚ) * 1000))) ∧
    pyInt ((30007 / 10000 : ℚ) * 1000) = 3000 ∧
    pyInt ((30007 / 10000 : ℚ) * 1000) ≠ 3001 := by
  have h0 : (0 : ℚ) ≤ (30007 / 10000 : ℚ) * 1000 := by norm_num
  have hfl :=
    (setIsSupply_sends_truncated_millivolts (30007 / 10000) true).2.1 h0
  have hval : pyInt ((30007 / 10000 : ℚ) * 1000) = 3000 := by
    rw [hfl, show ((30007 / 10000 : ℚ) * 1000) = (30007 : ℚ) / 10 by norm_num,
      Int.floor_eq_iff]
    constructor <;> norm_num
  refine ⟨(setIsSupply_sends_truncated_millivolts (30007 / 10000) true).1,
    hval, ?_⟩
  rw [hval]
  decide

/-- C9 amended witness: closing the freshly initialized session and then
closing the result both succeed, and the retained buffer still answers a
statistics query. -/
theorem close_succeeds_from_any_state_witness :
    close { measuring := false, current_measurements := [0] } =
      Except.ok ({ measuring := false, current_measurements := [0] },
        [Cmd.stop_measuring, Cmd.joinMeasurementThread, Cmd.superClose]) ∧
    (∃ q, get_min_current_mA [0] = some q) :=
  ⟨(close_succeeds_from_any_state
      { measuring := false, current_measurements := [0] }).1,
    (close_succeeds_from_any_state
      { measuring := false, current_measurements := [0] }).2.2 (by simp)⟩

end PPK2
